import Mathlib

/-!
# elevenlabs-fx-bot: command dispatch, decoding and delivery

A shallow embedding of `main.go`:

* `decodeResponseAudioFiles` (lines 99-119) together with the part of Go's
  `encoding/base64` it calls (`base64.StdEncoding.DecodeString`),
* `actionsHandler` (lines 160-276) as a function from the transport's and the
  generation service's behaviour to the ordered list of effects it performs and the
  error it returns.

Go strings that are only compared, concatenated and sent (command name, arguments,
notice texts) are Lean `String`s; the Base64 payload, which is decoded byte by byte,
is held as its bytes.
-/

namespace FxBot

/-! ## Go values -/

/-- One byte of a Go `string` or `[]byte`. -/
abbrev Byte := Fin 256

/-- Go `error` values met by the program: `base64.CorruptInputError` (an input
offset) and every other error, known by its message. -/
inductive GoError where
  | CorruptInputError (offset : Int)
  | other (msg : String)
  deriving DecidableEq, Repr

/-- The `Error()` method, which is what the verb `%v` prints. -/
def GoError.Error : GoError → String
  | .CorruptInputError offset => "illegal base64 data at input byte " ++ toString offset
  | .other msg => msg

/-! ## `encoding/base64`, `StdEncoding` -/

/-- The alphabet `encodeStd` of `base64.StdEncoding`, as bytes. -/
def encodeStd : List Byte :=
  [65, 66, 67, 68, 69, 70, 71, 72, 73, 74, 75, 76, 77, 78, 79, 80,
   81, 82, 83, 84, 85, 86, 87, 88, 89, 90,
   97, 98, 99, 100, 101, 102, 103, 104, 105, 106, 107, 108, 109, 110, 111, 112,
   113, 114, 115, 116, 117, 118, 119, 120, 121, 122,
   48, 49, 50, 51, 52, 53, 54, 55, 56, 57, 43, 47]

/-- The padding character `=` (`StdPadding`). -/
def padChar : Byte := 61

/-- The table `decodeMap`: `0xff` everywhere except at the bytes of the alphabet,
which are mapped to their index in it. -/
def decodeMap (b : Byte) : Nat :=
  if encodeStd.indexOf b < encodeStd.length then encodeStd.indexOf b else 0xff

/-- The test `in == '\n' || in == '\r'` of `decodeQuantum`. -/
def isNewline (b : Byte) : Bool := b == 10 || b == 13

/-- The loop `for si < len(src) && (src[si] == '\n' || src[si] == '\r') { si++ }`:
the new offset and the input left. -/
def skipNewlines : Int → List Byte → Int × List Byte
  | si, [] => (si, [])
  | si, c :: src => if isNewline c then skipNewlines (si + 1) src else (si, c :: src)

/-- The end of `decodeQuantum`: the `dlen = len dbuf` six-bit values are packed into
`val` and the first `dlen - 1` bytes of it are written to `dst`. -/
def quantumBytes (dbuf : List Nat) : List Byte :=
  let val := dbuf.getD 0 0 <<< 18 ||| dbuf.getD 1 0 <<< 12 ||| dbuf.getD 2 0 <<< 6 ||| dbuf.getD 3 0
  [Fin.ofNat (val >>> 16), Fin.ofNat (val >>> 8), Fin.ofNat val].take (dbuf.length - 1)

/-- After the padding of the last quantum: newlines are skipped, anything left is
trailing garbage (`err = CorruptInputError(si)`), and the quantum's bytes are written
whether or not there is garbage. -/
def afterPadding (dbuf : List Nat) (si : Int) (dst : List Byte) (src : List Byte) :
    List Byte × Option GoError :=
  match skipNewlines si src with
  | (_, []) => (dst ++ quantumBytes dbuf, none)
  | (si1, _ :: _) => (dst ++ quantumBytes dbuf, some (.CorruptInputError si1))

/-- The loop of `Encoding.Decode` around `decodeQuantum`, for `StdEncoding` (padded,
not strict). `dbuf` holds the six-bit values read so far in the current quantum (its
length is the `j` of the source), `si` is the offset of the next input byte, `dst` the
bytes written so far and the last argument the input from `si` on. The result is
`dst[:n]` and the error. The eight- and four-character fast paths of `Decode`
(`assemble64`, `assemble32`) decode quanta of alphabet characters to the same bytes
and are not modelled apart. -/
def decodeLoop : List Nat → Int → List Byte → List Byte → List Byte × Option GoError
  | dbuf, si, dst, [] =>
    if dbuf.length = 0 then (dst, none)
    else (dst, some (.CorruptInputError (si - dbuf.length)))
  | dbuf, si, dst, c :: src =>
    if decodeMap c ≠ 0xff then
      if dbuf.length = 3 then
        decodeLoop [] (si + 1) (dst ++ quantumBytes (dbuf ++ [decodeMap c])) src
      else decodeLoop (dbuf ++ [decodeMap c]) (si + 1) dst src
    else if isNewline c then decodeLoop dbuf (si + 1) dst src
    else if c ≠ padChar then (dst, some (.CorruptInputError (si + 1 - 1)))
    else if dbuf.length = 0 ∨ dbuf.length = 1 then
      (dst, some (.CorruptInputError (si + 1 - 1)))
    else if dbuf.length = 2 then
      match skipNewlines (si + 1) src with
      | (si1, []) => (dst, some (.CorruptInputError si1))
      | (si1, c1 :: src1) =>
        if c1 ≠ padChar then (dst, some (.CorruptInputError (si1 - 1)))
        else afterPadding dbuf (si1 + 1) dst src1
    else afterPadding dbuf (si + 1) dst src

/-- `base64.StdEncoding.DecodeString`: the decoded bytes `dbuf[:n]` and the error. -/
def DecodeString (s : List Byte) : List Byte × Option GoError :=
  decodeLoop [] 0 [] s

/-- The character `enc.encode[v & 0x3F]`. -/
def encodeChar (v : Nat) : Byte := encodeStd.getD (v &&& 0x3F) 0

/-- `base64.StdEncoding.EncodeToString`: three bytes give four characters, a rest of
one or two bytes is padded with `=`. -/
def EncodeToString : List Byte → List Byte
  | b0 :: b1 :: b2 :: src =>
    let val := b0.val <<< 16 ||| b1.val <<< 8 ||| b2.val
    encodeChar (val >>> 18) :: encodeChar (val >>> 12) :: encodeChar (val >>> 6) ::
      encodeChar val :: EncodeToString src
  | [b0, b1] =>
    let val := b0.val <<< 16 ||| b1.val <<< 8
    [encodeChar (val >>> 18), encodeChar (val >>> 12), encodeChar (val >>> 6), padChar]
  | [b0] =>
    let val := b0.val <<< 16
    [encodeChar (val >>> 18), encodeChar (val >>> 12), padChar, padChar]
  | [] => []

/-! ## The response of the generation service (lines 16-42) -/

/-- A `float64` that the program only passes on, held as the decimal it is written
as. -/
abbrev Float64 := Rat

structure GenerationSettings where
  DurationSeconds : Option Int
  PromptInfluence : Float64
  deriving DecidableEq

structure GenerationConfig where
  Text : String
  GenerationSettings : GenerationSettings
  NumberOfGenerations : Int
  deriving DecidableEq

structure SoundGenerationHistoryItem where
  SoundGenerationHistoryItemID : String
  Text : String
  CreatedAtUnix : Int
  ContentType : String
  GenerationConfig : GenerationConfig
  deriving DecidableEq

structure SoundGenerationWithWaveform where
  SoundGenerationHistoryItem : SoundGenerationHistoryItem
  WaveformBase64 : List Byte
  deriving DecidableEq

structure TextToFxResponse where
  SoundGenerationsWithWaveforms : List SoundGenerationWithWaveform
  deriving DecidableEq

/-! ## `decodeResponseAudioFiles` (lines 99-119) -/

/-- The loop of lines 105-112 from item `i` on: the first payload that does not decode
ends the function with `nil` and that error, a decoded payload is stored at
`audioBytes[i]`. -/
def decodeItems : List SoundGenerationWithWaveform → Nat → List (List Byte) →
    Option (List (List Byte)) × Option GoError
  | [], _, audioBytes => (some audioBytes, none)
  | item :: items, i, audioBytes =>
    match DecodeString item.WaveformBase64 with
    | (_, some err) => (none, some err)
    | (data, none) => decodeItems items (i + 1) (audioBytes.set i data)

/-- The function `decodeResponseAudioFiles`: the slice it returns (`none` is Go's
`nil`) and its error. What it logs and prints is left out. -/
def decodeResponseAudioFiles (response : TextToFxResponse) :
    Option (List (List Byte)) × Option GoError :=
  let audioBytes : List (List Byte) :=
    List.replicate response.SoundGenerationsWithWaveforms.length []
  if response.SoundGenerationsWithWaveforms.length = 0 then (some audioBytes, none)
  else decodeItems response.SoundGenerationsWithWaveforms 0 audioBytes

/-! ## The chat transport and the generation service -/

/-- The fields of `tgbotapi.MessageConfig` the program sets. -/
structure MessageConfig where
  ChatID : Int
  Text : String
  ParseMode : String
  DisableWebPagePreview : Bool
  deriving DecidableEq

/-- The type `tgbotapi.FileBytes`. -/
structure FileBytes where
  Name : String
  Bytes : List Byte
  deriving DecidableEq

/-- The fields of `tgbotapi.AudioConfig` the program sets. -/
structure AudioConfig where
  ChatID : Int
  File : FileBytes
  deriving DecidableEq

/-- What the program passes to `bot.Send`. -/
inductive Chattable where
  | message (msg : MessageConfig)
  | audio (audioMsg : AudioConfig)
  deriving DecidableEq

/-- The constructor `tgbotapi.NewMessage`. -/
def NewMessage (chatID : Int) (text : String) : MessageConfig :=
  ⟨chatID, text, "", false⟩

/-- The constructor `tgbotapi.NewAudioUpload`. -/
def NewAudioUpload (chatID : Int) (file : FileBytes) : AudioConfig :=
  ⟨chatID, file⟩

/-- What `actionsHandler` reads of its `update`: the results of
`update.Message.IsCommand()`, `.Command()`, `.CommandArguments()` and the field
`update.Message.Chat.ID`. -/
structure Update where
  IsCommand : Bool
  Command : String
  CommandArguments : String
  ChatID : Int
  deriving DecidableEq

/-- The effects of one invocation that the outside can see, in the order they
happen: a call of `bot.Send`, the request of `generateSound`, and the call of
`decodeResponseAudioFiles` (its first log line). -/
inductive Effect where
  | Send (c : Chattable)
  | generateSound (text : String) (promptInfluence : Float64) (durationSeconds : Option Int)
  | decodeResponseAudioFiles (response : TextToFxResponse)
  deriving DecidableEq

/-- The outside of the handler: whether a `bot.Send` fails, which may depend on
everything done before it, and what `generateSound` (lines 44-97, one HTTP request)
returns: the pointer `*TextToFxResponse` (`none` is `nil`) and the error. -/
structure BotAPI where
  Send : List Effect → Chattable → Option GoError
  generateSound : String → Float64 → Option Int → Option TextToFxResponse × Option GoError

/-- One call `_, err := bot.Send(c)` after the effects `tr`. -/
def botSend (bot : BotAPI) (c : Chattable) (tr : List Effect) : List Effect × Option GoError :=
  (tr ++ [Effect.Send c], bot.Send tr c)

/-! ## `actionsHandler` (lines 160-276) -/

/-- The text of the `start` notice (lines 176-179). -/
def startText : String :=
  "Привет! Я бот для генерации звуков c помощью AI.\n\n" ++
  "Напиши /generate c текстом для генерации аудио из текста. Например: <code>/generate kick</code>\n\n" ++
  "Бот использует сторонний сервис ElevenLabs, поэтому, пожалуйста, соблюдайте его правила и не злоупотребляйте функционалом бота.\n\n" ++
  "Кстати, обязательно подписывайся на мой канал: @mewnotes ⭐"

/-- The text of line 188. -/
def promptText : String :=
  "🤔 Напиши текст для генерации аудио. Например: <code>/generate kick</code>"

/-- The text of line 196. -/
def ackText : String := "🎵 Начинаю генерацию аудио..."

/-- The text of line 225. -/
def emptyText : String :=
  "😔 Сервис вернул пустой результат, такое бывает. Попробуйте еще раз."

/-- The text of line 229. -/
def multipleText : String :=
  "🥁 Сервис сгенерировал несколько аудиофайлов, загружаю их по очереди..."

/-- The text of line 270. -/
def unknownText : String := "I don't know that command"

/-- The text of line 206, `fmt.Sprintf("Error generating sound: %v", err)`. -/
def generateErrorText (err : GoError) : String :=
  "Error generating sound: " ++ err.Error

/-- The text of line 170,
`fmt.Sprintf("Error generating sound: <code>%v</code>", err)`. -/
def errorHandlerText (err : GoError) : String :=
  "Error generating sound: <code>" ++ err.Error ++ "</code>"

/-- The text of lines 246-247. -/
def completionText (command arguments : String) : String :=
  "🎵 Генерация аудио завершена! Чтобы сгенерировать еще, напиши <code>/" ++
    command ++ " " ++ arguments ++ "</code>"

/-- The message `msg` of lines 163-165 with its `Text` set. -/
def notice (update : Update) (text : String) : Chattable :=
  .message { NewMessage update.ChatID "" with
    ParseMode := "HTML", DisableWebPagePreview := true, Text := text }

/-- The message the closure `errorHandler` builds (lines 168-170). -/
def errorNotice (update : Update) (err : GoError) : Chattable :=
  .message { NewMessage update.ChatID "" with
    ParseMode := "HTML", Text := errorHandlerText err }

/-- The closure `errorHandler` (lines 167-172): it sends the error notice and drops
the result of that send. -/
def errorHandler (bot : BotAPI) (update : Update) (err : GoError) (tr : List Effect) :
    List Effect :=
  (botSend bot (errorNotice update err) tr).1

/-- The attachment of lines 237-238. -/
def audioUpload (update : Update) (audio : List Byte) : Chattable :=
  .audio (NewAudioUpload update.ChatID ⟨"audio.mp3", audio⟩)

/-- The loop of lines 236-244: an error in the result means the function has
returned it from inside the loop. -/
def sendAudios (bot : BotAPI) (update : Update) :
    List (List Byte) → List Effect → List Effect × Option GoError
  | [], tr => (tr, none)
  | audio :: audioBytes, tr =>
    match botSend bot (audioUpload update audio) tr with
    | (tr1, some err) => (errorHandler bot update err tr1, some err)
    | (tr1, none) => sendAudios bot update audioBytes tr1

/-- Lines 236-252: the attachments and then the completion notice. -/
def deliver (bot : BotAPI) (update : Update) (audioBytes : List (List Byte))
    (tr : List Effect) : List Effect × Option GoError :=
  match sendAudios bot update audioBytes tr with
  | (tr1, some err) => (tr1, some err)
  | (tr1, none) =>
    match botSend bot
        (notice update (completionText update.Command update.CommandArguments)) tr1 with
    | (tr2, some err) => (errorHandler bot update err tr2, some err)
    | (tr2, none) => (tr2, none)

/-- Lines 203-252, after the acknowledgement has been sent. -/
def generate (bot : BotAPI) (update : Update) (tr : List Effect) :
    List Effect × Option GoError :=
  let tr1 := tr ++ [Effect.generateSound update.CommandArguments (3 / 10) none]
  match bot.generateSound update.CommandArguments (3 / 10) none with
  | (_, some err) => botSend bot (notice update (generateErrorText err)) tr1
  | (none, none) => (errorHandler bot update (.other "no result") tr1, some (.other "no result"))
  | (some result, none) =>
    let tr2 := tr1 ++ [Effect.decodeResponseAudioFiles result]
    match decodeResponseAudioFiles result with
    | (_, some err) => (errorHandler bot update err tr2, some err)
    | (audioBytes, none) =>
      if (audioBytes.getD []).length = 0 then botSend bot (notice update emptyText) tr2
      else if (audioBytes.getD []).length > 1 then
        match botSend bot (notice update multipleText) tr2 with
        | (tr3, some err) => (errorHandler bot update err tr3, some err)
        | (tr3, none) => deliver bot update (audioBytes.getD []) tr3
      else deliver bot update (audioBytes.getD []) tr2

/-- The function `actionsHandler`: the effects it performs, in order, and the error
it returns (`none` is `nil`). -/
def actionsHandler (bot : BotAPI) (update : Update) : List Effect × Option GoError :=
  if update.IsCommand then
    if update.Command = "start" then
      match botSend bot (notice update startText) [] with
      | (tr, some err) => (errorHandler bot update err tr, some err)
      | (tr, none) => (tr, none)
    else if update.Command = "generate" then
      if update.CommandArguments = "" then
        match botSend bot (notice update promptText) [] with
        | (tr, some err) => (errorHandler bot update err tr, none)
        | (tr, none) => (tr, none)
      else
        match botSend bot (notice update ackText) [] with
        | (tr, some err) => (errorHandler bot update err tr, some err)
        | (tr, none) => generate bot update tr
    else botSend bot (notice update unknownText) []
  else ([], none)

/-- The body of the loop of `main` for one update with a message (lines 312-316):
the line it logs, if it logs one. -/
def mainStep (bot : BotAPI) (update : Update) : Option String :=
  match (actionsHandler bot update).2 with
  | some err => some ("Error handling action: " ++ err.Error)
  | none => none

/-! ## Valid payloads, stated apart from the decoder -/

/-- Membership in the standard alphabet `A-Z`, `a-z`, `0-9`, `+`, `/`. -/
def inAlphabet (b : Byte) : Bool := encodeStd.contains b

/-- A valid standard (padded) Base64 string: groups of four characters of the
standard alphabet, where the last group may end in `=` or in `==`, and nothing
else. -/
def validPadded : List Byte → Bool
  | [] => true
  | c0 :: c1 :: c2 :: c3 :: rest =>
    inAlphabet c0 && inAlphabet c1 &&
      (if rest.isEmpty then
        (inAlphabet c2 && (inAlphabet c3 || c3 == padChar)) || (c2 == padChar && c3 == padChar)
      else inAlphabet c2 && inAlphabet c3 && validPadded rest)
  | _ => false

/-- The string without its line breaks `\r` and `\n`. -/
def stripNewlines (s : List Byte) : List Byte :=
  s.filter (fun b => !isNewline b)

/-- The string is padded Base64 over the standard alphabet once its line breaks `\r`
and `\n` are removed. This is wider than `validPadded`: a string with line breaks is
never `validPadded`. -/
def validIgnoringLineBreaks (s : List Byte) : Bool :=
  validPadded (stripNewlines s)

/-- The grammar of `validPadded` read one character at a time, `j` characters into
the current group. -/
def validFrom : Nat → List Byte → Bool
  | j, [] => j == 0
  | j, c :: src =>
    if inAlphabet c then (if j = 3 then validFrom 0 src else validFrom (j + 1) src)
    else if c == padChar then (j == 2 && src == [padChar]) || (j == 3 && src == [])
    else false

/-! ## Reading a list of effects -/

/-- The effect of sending one decoded audio as an attachment. -/
def sent (update : Update) (audio : List Byte) : Effect :=
  Effect.Send (audioUpload update audio)

/-- Whether an effect is the send of an attachment. -/
def Effect.isAttachment : Effect → Bool
  | .Send (.audio _) => true
  | _ => false

/-- Whether an effect is a generation request. -/
def Effect.isRequest : Effect → Bool
  | .generateSound _ _ _ => true
  | _ => false

/-- Whether an effect is a call of `decodeResponseAudioFiles`. -/
def Effect.isDecode : Effect → Bool
  | .decodeResponseAudioFiles _ => true
  | _ => false

/-- The three effects every delivery starts with: the acknowledgement, the request
with prompt influence 0.3 and no duration, and the decoding of its response. -/
def requested (update : Update) (response : TextToFxResponse) : List Effect :=
  [Effect.Send (notice update ackText),
    Effect.generateSound update.CommandArguments (3 / 10) none,
    Effect.decodeResponseAudioFiles response]

/-- The decoded bytes of every item of a response, in order. -/
def decodedAudios (response : TextToFxResponse) : List (List Byte) :=
  response.SoundGenerationsWithWaveforms.map (fun item => (DecodeString item.WaveformBase64).1)

/-- The effects before the first attachment: the three of `requested` and, for two
or more audios, the "multiple" notice. -/
def deliveryStart (update : Update) (response : TextToFxResponse) : List Effect :=
  requested update response ++
    (if 2 ≤ response.SoundGenerationsWithWaveforms.length then
      [Effect.Send (notice update multipleText)] else [])

/-- The completion notice of an update (lines 246-248). -/
def completionNotice (update : Update) : Effect :=
  Effect.Send (notice update (completionText update.Command update.CommandArguments))

/-! ## Sample inputs -/

/-- A transport on which every send succeeds, with a fixed answer of the service. -/
def okBot (answer : Option TextToFxResponse × Option GoError) : BotAPI :=
  ⟨fun _ _ => none, fun _ _ _ => answer⟩

/-- A transport on which exactly the send made after `n` effects fails. -/
def failAtBot (n : Nat) (answer : Option TextToFxResponse × Option GoError) : BotAPI :=
  ⟨fun tr _ => if tr.length = n then some (.other "send failed") else none,
    fun _ _ _ => answer⟩

/-- A transport on which every send fails. -/
def downBot : BotAPI :=
  ⟨fun _ _ => some (.other "send failed"), fun _ _ _ => (none, some (.other "no network"))⟩

/-- A response item with the given payload. -/
def sampleItem (waveform : List Byte) : SoundGenerationWithWaveform :=
  ⟨⟨"id", "kick", 0, "audio/mpeg", ⟨"kick", ⟨none, 3 / 10⟩, 1⟩⟩, waveform⟩

/-- A response with three items, the payloads `QQ==`, `QUI=`, `QUJD`. -/
def threeItems : TextToFxResponse :=
  ⟨[sampleItem [81, 81, 61, 61], sampleItem [81, 85, 73, 61], sampleItem [81, 85, 74, 68]]⟩

/-- The command `/generate` with the given arguments, from chat 1. -/
def generateUpdate (arguments : String) : Update :=
  ⟨true, "generate", arguments, 1⟩

/-- The command `/help`, which the bot does not know, from chat 1. -/
def helpUpdate : Update :=
  ⟨true, "help", "", 1⟩

/-- The error of a generation request that did not get through. -/
def requestError : GoError :=
  .other "failed to send request: timeout"

/-! ## Lemmas on `decodeItems` -/

theorem decodeItems_length (items : List SoundGenerationWithWaveform) (i : Nat)
    (audioBytes : List (List Byte)) :
    (∃ err, decodeItems items i audioBytes = (none, some err)) ∨
      (∃ l, decodeItems items i audioBytes = (some l, none) ∧ l.length = audioBytes.length) := by
  induction items generalizing i audioBytes with
  | nil => exact Or.inr ⟨audioBytes, rfl, rfl⟩
  | cons item items ih =>
    rcases h : DecodeString item.WaveformBase64 with ⟨data, _ | err⟩
    · rcases ih (i + 1) (audioBytes.set i data) with ⟨err, he⟩ | ⟨l, hl, hlen⟩
      · exact Or.inl ⟨err, by simp [decodeItems, h, he]⟩
      · exact Or.inr ⟨l, by simp [decodeItems, h, hl], by simpa using hlen⟩
    · exact Or.inl ⟨err, by simp [decodeItems, h]⟩

/-- When every payload from item `i` on decodes, the loop fills the slots from `i` on
with the decoded payloads, in order. -/
theorem decodeItems_ok (items : List SoundGenerationWithWaveform) (pre : List (List Byte))
    (post : List (List Byte)) (hpost : post.length = items.length)
    (hok : ∀ item ∈ items, (DecodeString item.WaveformBase64).2 = none) :
    decodeItems items pre.length (pre ++ post) =
      (some (pre ++ items.map (fun item => (DecodeString item.WaveformBase64).1)), none) := by
  induction items generalizing pre post with
  | nil =>
    have : post = [] := List.length_eq_zero.mp (by simpa using hpost)
    simp [decodeItems, this]
  | cons item items ih =>
    cases post with
    | nil => simp at hpost
    | cons p post =>
      have h1 : (DecodeString item.WaveformBase64).2 = none := hok item (by simp)
      rcases h : DecodeString item.WaveformBase64 with ⟨data, e⟩
      rw [h] at h1
      simp only at h1
      subst h1
      have hset : (pre ++ p :: post).set pre.length data = (pre ++ [data]) ++ post := by
        simp [List.set_append]
      have := ih (pre ++ [data]) post (by simpa using hpost)
        (fun it hit => hok it (List.mem_cons_of_mem _ hit))
      simp only [decodeItems, h, hset]
      simpa [h] using this

/-- The first payload that does not decode ends the loop with `nil` and its error. -/
theorem decodeItems_first_error (pre : List SoundGenerationWithWaveform)
    (item : SoundGenerationWithWaveform) (post : List SoundGenerationWithWaveform)
    (i : Nat) (audioBytes : List (List Byte))
    (hpre : ∀ x ∈ pre, (DecodeString x.WaveformBase64).2 = none)
    (hitem : (DecodeString item.WaveformBase64).2 ≠ none) :
    decodeItems (pre ++ item :: post) i audioBytes =
      (none, (DecodeString item.WaveformBase64).2) := by
  induction pre generalizing i audioBytes with
  | nil =>
    rcases h : DecodeString item.WaveformBase64 with ⟨data, _ | err⟩
    · simp [h] at hitem
    · simp [decodeItems, h]
  | cons x pre ih =>
    have h1 : (DecodeString x.WaveformBase64).2 = none := hpre x (by simp)
    rcases h : DecodeString x.WaveformBase64 with ⟨data, e⟩
    rw [h] at h1
    simp only at h1
    subst h1
    simp only [List.cons_append, decodeItems, h]
    exact ih _ _ (fun y hy => hpre y (List.mem_cons_of_mem _ hy))

/-- A list splits at its first element that fails a test, if there is one. -/
theorem exists_first_failing {α : Type} (p : α → Bool) (l : List α) :
    (∀ x ∈ l, p x = true) ∨
      ∃ pre x post, l = pre ++ x :: post ∧ (∀ y ∈ pre, p y = true) ∧ p x = false := by
  induction l with
  | nil => exact Or.inl (by simp)
  | cons a l ih =>
    cases ha : p a with
    | false => exact Or.inr ⟨[], a, l, rfl, by simp, ha⟩
    | true =>
      rcases ih with hall | ⟨pre, x, post, hl, hpre, hx⟩
      · exact Or.inl (by
          intro y hy
          rcases List.mem_cons.mp hy with rfl | hy
          · exact ha
          · exact hall y hy)
      · refine Or.inr ⟨a :: pre, x, post, by simp [hl], ?_, hx⟩
        intro y hy
        rcases List.mem_cons.mp hy with rfl | hy
        · exact ha
        · exact hpre y hy

/-! ## Lemmas on the decoder of `StdEncoding` -/

theorem decodeMap_ne_iff (c : Byte) : decodeMap c ≠ 0xff ↔ inAlphabet c = true := by
  have hlen : encodeStd.length = 64 := rfl
  unfold decodeMap inAlphabet
  rw [show (encodeStd.contains c = true ↔ c ∈ encodeStd) from by simp]
  constructor
  · intro h
    by_cases hlt : encodeStd.indexOf c < encodeStd.length
    · exact List.indexOf_lt_length.mp hlt
    · simp [hlt] at h
  · intro h
    have hlt : encodeStd.indexOf c < encodeStd.length := List.indexOf_lt_length.mpr h
    rw [if_pos hlt]
    omega

set_option maxRecDepth 100000 in
theorem inAlphabet_not_special (c : Byte) (h : inAlphabet c = true) :
    isNewline c = false ∧ c ≠ padChar := by
  have hall : ∀ x ∈ encodeStd, isNewline x = false ∧ x ≠ padChar := by decide
  exact hall c (by simpa [inAlphabet] using h)

theorem padChar_not_newline : isNewline padChar = false := by decide

theorem stripNewlines_cons_newline (c : Byte) (src : List Byte) (h : isNewline c = true) :
    stripNewlines (c :: src) = stripNewlines src := by
  simp [stripNewlines, h]

theorem stripNewlines_cons_keep (c : Byte) (src : List Byte) (h : isNewline c = false) :
    stripNewlines (c :: src) = c :: stripNewlines src := by
  simp [stripNewlines, h]

/-- What `skipNewlines` leaves: nothing, when only line breaks were left, or an input
that starts with another byte. -/
theorem skipNewlines_spec (si : Int) (src : List Byte) :
    ((skipNewlines si src).2 = [] ∧ stripNewlines src = []) ∨
      ∃ c rest, (skipNewlines si src).2 = c :: rest ∧ isNewline c = false ∧
        stripNewlines src = c :: stripNewlines rest := by
  induction src generalizing si with
  | nil => exact Or.inl ⟨rfl, rfl⟩
  | cons a src ih =>
    cases ha : isNewline a with
    | true =>
      simp only [skipNewlines, ha, if_true, stripNewlines_cons_newline a src ha]
      exact ih (si + 1)
    | false =>
      refine Or.inr ⟨a, src, ?_, ha, stripNewlines_cons_keep a src ha⟩
      simp [skipNewlines, ha]

theorem afterPadding_ok_iff (dbuf : List Nat) (si : Int) (dst src : List Byte) :
    (afterPadding dbuf si dst src).2 = none ↔ stripNewlines src = [] := by
  unfold afterPadding
  rcases skipNewlines_spec si src with ⟨h1, h2⟩ | ⟨c, rest, h1, _, h2⟩
  · rcases hs : skipNewlines si src with ⟨si1, l⟩
    rw [hs] at h1
    simp only at h1
    subst h1
    simp [h2]
  · rcases hs : skipNewlines si src with ⟨si1, l⟩
    rw [hs] at h1
    simp only at h1
    subst h1
    simp [h2]

theorem decodeLoop_ok_iff (src : List Byte) (dbuf : List Nat) (si : Int) (dst : List Byte)
    (hj : dbuf.length ≤ 3) :
    (decodeLoop dbuf si dst src).2 = none ↔
      validFrom dbuf.length (stripNewlines src) = true := by
  induction src generalizing dbuf si dst with
  | nil =>
    by_cases h0 : dbuf.length = 0 <;> simp [decodeLoop, stripNewlines, validFrom, h0]
  | cons c src ih =>
    by_cases hA : inAlphabet c = true
    · have hm := (decodeMap_ne_iff c).mpr hA
      obtain ⟨hn, hp⟩ := inAlphabet_not_special c hA
      rw [stripNewlines_cons_keep c src hn]
      by_cases h3 : dbuf.length = 3
      · have := ih [] (si + 1) (dst ++ quantumBytes (dbuf ++ [decodeMap c])) (by simp)
        simpa [decodeLoop, hm, h3, validFrom, hA] using this
      · have := ih (dbuf ++ [decodeMap c]) (si + 1) dst (by simp; omega)
        simpa [decodeLoop, hm, h3, validFrom, hA] using this
    · have hm : ¬ decodeMap c ≠ 0xff := fun h => hA ((decodeMap_ne_iff c).mp h)
      cases hn : isNewline c with
      | true =>
        rw [stripNewlines_cons_newline c src hn]
        have := ih dbuf (si + 1) dst hj
        simpa [decodeLoop, hm, hn] using this
      | false =>
        rw [stripNewlines_cons_keep c src hn]
        by_cases hp : c = padChar
        · subst hp
          have hj1 : dbuf.length = 0 ∨ dbuf.length = 1 ∨ dbuf.length = 2 ∨ dbuf.length = 3 := by
            omega
          rcases hj1 with h | h | h | h
          · simp [decodeLoop, hm, hn, validFrom, hA, h]
          · simp [decodeLoop, hm, hn, validFrom, hA, h]
          · rcases skipNewlines_spec (si + 1) src with ⟨h1, h2⟩ | ⟨c1, rest, h1, _, h2⟩
            · rcases hs : skipNewlines (si + 1) src with ⟨si1, l⟩
              rw [hs] at h1
              simp only at h1
              subst h1
              simp [decodeLoop, hm, hn, validFrom, hA, h, hs, h2]
            · rcases hs : skipNewlines (si + 1) src with ⟨si1, l⟩
              rw [hs] at h1
              simp only at h1
              subst h1
              by_cases hc1 : c1 = padChar
              · have := afterPadding_ok_iff dbuf (si1 + 1) dst rest
                simpa [decodeLoop, hm, hn, validFrom, hA, h, hs, h2, hc1] using this
              · simp [decodeLoop, hm, hn, validFrom, hA, h, hs, h2, hc1]
          · have := afterPadding_ok_iff dbuf (si + 1) dst src
            simpa [decodeLoop, hm, hn, validFrom, hA, h] using this
        · simp [decodeLoop, hm, hn, hp, validFrom, hA]

theorem padChar_not_inAlphabet : inAlphabet padChar = false := by decide

theorem validFrom_zero : ∀ l : List Byte, validFrom 0 l = validPadded l
  | [] => rfl
  | [a] => by
    by_cases ha : inAlphabet a = true <;> simp [validFrom, validPadded, ha]
  | [a, b] => by
    by_cases ha : inAlphabet a = true <;> by_cases hb : inAlphabet b = true <;>
      simp [validFrom, validPadded, ha, hb]
  | [a, b, c] => by
    by_cases ha : inAlphabet a = true <;> by_cases hb : inAlphabet b = true <;>
      by_cases hc : inAlphabet c = true <;>
      simp [validFrom, validPadded, ha, hb, hc]
  | a :: b :: c :: d :: rest => by
    have ih := validFrom_zero rest
    by_cases ha : inAlphabet a = true
    · by_cases hb : inAlphabet b = true
      · by_cases hc : inAlphabet c = true
        · have hcp := (inAlphabet_not_special c hc).2
          by_cases hd : inAlphabet d = true
          · cases rest with
            | nil => simp [validFrom, validPadded, ha, hb, hc, hd]
            | cons r rest => simp [validFrom, validPadded, ha, hb, hc, hd, ← ih]
          · cases rest with
            | nil =>
              by_cases hdp : d = padChar <;>
                simp [validFrom, validPadded, ha, hb, hc, hd, hcp, hdp]
            | cons r rest => simp [validFrom, validPadded, ha, hb, hc, hd]
        · cases rest with
          | nil =>
            by_cases hcp : c = padChar <;> by_cases hdp : d = padChar <;>
              simp [validFrom, validPadded, ha, hb, hc, hcp, hdp, padChar_not_inAlphabet]
          | cons r rest => simp [validFrom, validPadded, ha, hb, hc]
      · simp [validFrom, validPadded, ha, hb]
    · simp [validFrom, validPadded, ha]

/-- The decoder of `StdEncoding` accepts exactly the strings that, without their line
breaks, are padded Base64 over the standard alphabet. -/
theorem DecodeString_ok_iff (s : List Byte) :
    (DecodeString s).2 = none ↔ validIgnoringLineBreaks s = true := by
  have := decodeLoop_ok_iff s [] 0 [] (by simp)
  simpa [DecodeString, validIgnoringLineBreaks, validFrom_zero] using this

/-! ## Round trip of `StdEncoding` -/

set_option maxRecDepth 100000 in
theorem decodeMap_encodeStd : ∀ k : Fin 64, decodeMap (encodeStd.getD k.val 0) = k.val := by
  decide

theorem decodeMap_encodeChar (v : Nat) : decodeMap (encodeChar v) = v % 64 := by
  have h : v &&& 0x3F = v % 64 := Nat.and_pow_two_sub_one_eq_mod v 6
  have hlt : v % 64 < 64 := Nat.mod_lt _ (by decide)
  unfold encodeChar
  rw [h]
  exact decodeMap_encodeStd ⟨v % 64, hlt⟩

theorem lor_eq_add (a b m i : Nat) (hm : m = 2 ^ i) (hd : m ∣ a) (hb : b < m) :
    a ||| b = a + b := by
  subst hm
  obtain ⟨k, rfl⟩ := hd
  exact (Nat.mul_add_lt_is_or hb k).symm

theorem pack3 (b0 b1 b2 : Nat) (h1 : b1 < 256) (h2 : b2 < 256) :
    b0 <<< 16 ||| b1 <<< 8 ||| b2 = b0 * 65536 + b1 * 256 + b2 := by
  simp only [Nat.shiftLeft_eq]
  rw [lor_eq_add (b0 * 2 ^ 16) (b1 * 2 ^ 8) 65536 16 (by norm_num) (by norm_num) (by omega)]
  rw [lor_eq_add _ b2 256 8 (by norm_num) (by omega) h2]

theorem pack4 (d0 d1 d2 d3 : Nat) (h1 : d1 < 64) (h2 : d2 < 64) (h3 : d3 < 64) :
    d0 <<< 18 ||| d1 <<< 12 ||| d2 <<< 6 ||| d3 =
      d0 * 262144 + d1 * 4096 + d2 * 64 + d3 := by
  simp only [Nat.shiftLeft_eq]
  rw [lor_eq_add (d0 * 2 ^ 18) (d1 * 2 ^ 12) 262144 18 (by norm_num) (by norm_num) (by omega)]
  rw [lor_eq_add _ (d2 * 2 ^ 6) 4096 12 (by norm_num) (by omega) (by omega)]
  rw [lor_eq_add _ d3 64 6 (by norm_num) (by omega) h3]

theorem quantumBytes_pack (d0 d1 d2 d3 : Nat) (h1 : d1 < 64) (h2 : d2 < 64) (h3 : d3 < 64) :
    [(Fin.ofNat ((d0 <<< 18 ||| d1 <<< 12 ||| d2 <<< 6 ||| d3) >>> 16) : Byte),
      Fin.ofNat ((d0 <<< 18 ||| d1 <<< 12 ||| d2 <<< 6 ||| d3) >>> 8),
      Fin.ofNat (d0 <<< 18 ||| d1 <<< 12 ||| d2 <<< 6 ||| d3)] =
    [Fin.ofNat ((d0 * 262144 + d1 * 4096 + d2 * 64 + d3) / 65536),
      Fin.ofNat ((d0 * 262144 + d1 * 4096 + d2 * 64 + d3) / 256),
      Fin.ofNat (d0 * 262144 + d1 * 4096 + d2 * 64 + d3)] := by
  rw [pack4 d0 d1 d2 d3 h1 h2 h3]
  simp [Nat.shiftRight_eq_div_pow]

theorem byte_eq (x : Nat) (b : Byte) (h : x % 256 = b.val) : (Fin.ofNat x : Byte) = b := by
  apply Fin.ext
  simpa [Fin.ofNat] using h

theorem quantumBytes_three (b0 b1 b2 : Byte) (val : Nat)
    (hval : val = b0.val <<< 16 ||| b1.val <<< 8 ||| b2.val) :
    quantumBytes [(val >>> 18) % 64, (val >>> 12) % 64, (val >>> 6) % 64, val % 64] =
      [b0, b1, b2] := by
  have h0 := b0.isLt
  have h1 := b1.isLt
  have h2 := b2.isLt
  rw [pack3 b0.val b1.val b2.val h1 h2] at hval
  simp only [Nat.shiftRight_eq_div_pow] at *
  have e := quantumBytes_pack (val / 2 ^ 18 % 64) (val / 2 ^ 12 % 64) (val / 2 ^ 6 % 64)
    (val % 64) (Nat.mod_lt _ (by decide)) (Nat.mod_lt _ (by decide)) (Nat.mod_lt _ (by decide))
  simp only [quantumBytes, List.getD_cons_zero, List.getD_cons_succ, List.length_cons,
    List.length_nil]
  rw [e]
  simp only [Nat.reduceAdd, Nat.add_one_sub_one, List.take_succ_cons, List.take_zero,
    List.cons.injEq, and_true]
  refine ⟨byte_eq _ _ ?_, byte_eq _ _ ?_, byte_eq _ _ ?_⟩ <;> omega

theorem quantumBytes_two (b0 b1 : Byte) (val : Nat)
    (hval : val = b0.val <<< 16 ||| b1.val <<< 8) :
    quantumBytes [(val >>> 18) % 64, (val >>> 12) % 64, (val >>> 6) % 64] = [b0, b1] := by
  have h0 := b0.isLt
  have h1 := b1.isLt
  simp only [Nat.shiftLeft_eq] at hval
  rw [lor_eq_add (b0.val * 2 ^ 16) (b1.val * 2 ^ 8) 65536 16 (by norm_num) (by norm_num)
    (by omega)] at hval
  simp only [Nat.shiftRight_eq_div_pow] at *
  have e := quantumBytes_pack (val / 2 ^ 18 % 64) (val / 2 ^ 12 % 64) (val / 2 ^ 6 % 64)
    0 (Nat.mod_lt _ (by decide)) (Nat.mod_lt _ (by decide)) (by decide)
  simp only [quantumBytes, List.getD_cons_zero, List.getD_cons_succ, List.length_cons,
    List.length_nil, List.getD_nil]
  rw [e]
  simp only [Nat.reduceAdd, Nat.add_one_sub_one, List.take_succ_cons, List.take_zero,
    List.cons.injEq, and_true]
  refine ⟨byte_eq _ _ ?_, byte_eq _ _ ?_⟩ <;> omega

theorem quantumBytes_one (b0 : Byte) (val : Nat) (hval : val = b0.val <<< 16) :
    quantumBytes [(val >>> 18) % 64, (val >>> 12) % 64] = [b0] := by
  have h0 := b0.isLt
  simp only [Nat.shiftLeft_eq] at hval
  simp only [Nat.shiftRight_eq_div_pow] at *
  have e := quantumBytes_pack (val / 2 ^ 18 % 64) (val / 2 ^ 12 % 64) 0
    0 (Nat.mod_lt _ (by decide)) (by decide) (by decide)
  simp only [quantumBytes, List.getD_cons_zero, List.getD_cons_succ, List.length_cons,
    List.length_nil, List.getD_nil]
  rw [e]
  simp only [Nat.reduceAdd, Nat.add_one_sub_one, List.take_succ_cons, List.take_zero,
    List.cons.injEq, and_true]
  refine byte_eq _ _ ?_
  omega

theorem decodeMap_encodeChar_ne (v : Nat) : decodeMap (encodeChar v) ≠ 0xff := by
  rw [decodeMap_encodeChar]
  have : v % 64 < 64 := Nat.mod_lt _ (by decide)
  omega

theorem mod64_ne (v : Nat) : ¬ (v % 64 = 255) := by omega

theorem decodeMap_padChar : decodeMap padChar = 0xff := by decide

/-- Decoding what `EncodeToString` wrote, from any state between two quanta, appends
the encoded bytes and raises no error. -/
theorem decodeLoop_EncodeToString : ∀ (src : List Byte) (si : Int) (dst : List Byte),
    decodeLoop [] si dst (EncodeToString src) = (dst ++ src, none)
  | [], si, dst => by simp [EncodeToString, decodeLoop]
  | [b0], si, dst => by
    have hq := quantumBytes_one b0 _ rfl
    simp only [EncodeToString, decodeLoop, decodeMap_encodeChar_ne, decodeMap_encodeChar,
      decodeMap_padChar, padChar_not_newline, skipNewlines, afterPadding]
    simp [hq, mod64_ne, skipNewlines]
  | [b0, b1], si, dst => by
    have hq := quantumBytes_two b0 b1 _ rfl
    simp only [EncodeToString, decodeLoop, decodeMap_encodeChar_ne, decodeMap_encodeChar,
      decodeMap_padChar, padChar_not_newline, skipNewlines, afterPadding]
    simp [hq, mod64_ne, skipNewlines]
  | b0 :: b1 :: b2 :: src, si, dst => by
    have hq := quantumBytes_three b0 b1 b2 _ rfl
    have ih := decodeLoop_EncodeToString src (si + 1 + 1 + 1 + 1) (dst ++ [b0, b1, b2])
    simp only [EncodeToString, decodeLoop, decodeMap_encodeChar_ne, decodeMap_encodeChar]
    simp [hq, ih, mod64_ne]

theorem DecodeString_EncodeToString (src : List Byte) :
    DecodeString (EncodeToString src) = (src, none) := by
  simpa [DecodeString] using decodeLoop_EncodeToString src 0 []

/-! ## `decodeResponseAudioFiles`: all or nothing, first error, round trip -/

theorem decodeResponseAudioFiles_ok (response : TextToFxResponse)
    (hok : ∀ item ∈ response.SoundGenerationsWithWaveforms,
      (DecodeString item.WaveformBase64).2 = none) :
    decodeResponseAudioFiles response =
      (some (response.SoundGenerationsWithWaveforms.map
        (fun item => (DecodeString item.WaveformBase64).1)), none) := by
  unfold decodeResponseAudioFiles
  by_cases h0 : response.SoundGenerationsWithWaveforms.length = 0
  · have : response.SoundGenerationsWithWaveforms = [] := List.length_eq_zero.mp h0
    simp [this]
  · have := decodeItems_ok response.SoundGenerationsWithWaveforms []
      (List.replicate response.SoundGenerationsWithWaveforms.length []) (by simp) hok
    simpa [h0] using this

theorem decodeResponseAudioFiles_first_error (response : TextToFxResponse)
    (pre : List SoundGenerationWithWaveform) (item : SoundGenerationWithWaveform)
    (post : List SoundGenerationWithWaveform)
    (hsplit : response.SoundGenerationsWithWaveforms = pre ++ item :: post)
    (hpre : ∀ x ∈ pre, (DecodeString x.WaveformBase64).2 = none)
    (hitem : (DecodeString item.WaveformBase64).2 ≠ none) :
    decodeResponseAudioFiles response = (none, (DecodeString item.WaveformBase64).2) := by
  unfold decodeResponseAudioFiles
  have h0 : response.SoundGenerationsWithWaveforms.length ≠ 0 := by simp [hsplit]
  simp only [h0, if_false]
  rw [hsplit]
  exact decodeItems_first_error pre item post 0 _ hpre hitem

theorem DecodeString_error_iff (s : List Byte) :
    (DecodeString s).2 ≠ none ↔ validIgnoringLineBreaks s = false := by
  rw [Ne, DecodeString_ok_iff]
  simp

/-- A payload with a line break after its padding is still decoded. -/
theorem DecodeString_ignores_line_break :
    validPadded [81, 81, 61, 61, 10] = false ∧
      DecodeString [81, 81, 61, 61, 10] = ([65], none) := by
  decide

/-- Claim C5: For every response, `decodeResponseAudioFiles` either fails, returning
`nil` and an error, or succeeds with a list that has exactly as many entries as the
response has items; a shorter successful result does not occur. -/
theorem decodeResponseAudioFiles_all_or_nothing (response : TextToFxResponse) :
    (∃ err, decodeResponseAudioFiles response = (none, some err)) ∨
      (∃ audioBytes, decodeResponseAudioFiles response = (some audioBytes, none) ∧
        audioBytes.length = response.SoundGenerationsWithWaveforms.length) := by
  unfold decodeResponseAudioFiles
  by_cases h0 : response.SoundGenerationsWithWaveforms.length = 0
  · exact Or.inr ⟨List.replicate response.SoundGenerationsWithWaveforms.length [],
      by simp [h0], by simp⟩
  · rcases decodeItems_length response.SoundGenerationsWithWaveforms 0
      (List.replicate response.SoundGenerationsWithWaveforms.length []) with
      ⟨err, he⟩ | ⟨l, hl, hlen⟩
    · exact Or.inl ⟨err, by simp [h0, he]⟩
    · exact Or.inr ⟨l, by simp [h0, hl], by simpa using hlen⟩

/-- Claim C6, as amended: For every response, `decodeResponseAudioFiles` fails if and
only if at least one item's `WaveformBase64`, with its line breaks `\r` and `\n`
removed, is not a valid standard padded Base64 string. Either every item is valid in
that sense and a list is returned without error, or the items split at the first
invalid one, and the result is `nil` together with the error `DecodeString` raises on
that item: nothing decoded before it is returned. -/
theorem decodeResponseAudioFiles_fails_iff (response : TextToFxResponse) :
    ((decodeResponseAudioFiles response).2 ≠ none ↔
      ∃ item ∈ response.SoundGenerationsWithWaveforms,
        validIgnoringLineBreaks item.WaveformBase64 = false) ∧
    (((∀ item ∈ response.SoundGenerationsWithWaveforms,
          validIgnoringLineBreaks item.WaveformBase64 = true) ∧
        ∃ audioBytes, decodeResponseAudioFiles response = (some audioBytes, none)) ∨
      ∃ pre item post, response.SoundGenerationsWithWaveforms = pre ++ item :: post ∧
        (∀ x ∈ pre, validIgnoringLineBreaks x.WaveformBase64 = true) ∧
        validIgnoringLineBreaks item.WaveformBase64 = false ∧
        (DecodeString item.WaveformBase64).2 ≠ none ∧
        decodeResponseAudioFiles response = (none, (DecodeString item.WaveformBase64).2)) := by
  rcases exists_first_failing (fun item => validIgnoringLineBreaks item.WaveformBase64)
      response.SoundGenerationsWithWaveforms with hall | ⟨pre, item, post, hsplit, hpre, hitem⟩
  · have hok := decodeResponseAudioFiles_ok response
      (fun item hi => (DecodeString_ok_iff _).mpr (hall item hi))
    refine ⟨?_, Or.inl ⟨hall, _, hok⟩⟩
    rw [hok]
    constructor
    · intro h
      exact absurd rfl h
    · rintro ⟨item, hi, hbad⟩
      have := hall item hi
      simp [hbad] at this
  · have hne : (DecodeString item.WaveformBase64).2 ≠ none :=
      (DecodeString_error_iff _).mpr hitem
    have herr := decodeResponseAudioFiles_first_error response pre item post hsplit
      (fun x hx => (DecodeString_ok_iff _).mpr (hpre x hx)) hne
    refine ⟨?_, Or.inr ⟨pre, item, post, hsplit, hpre, hitem, hne, herr⟩⟩
    rw [herr]
    constructor
    · intro _
      exact ⟨item, by simp [hsplit], hitem⟩
    · intro _
      exact hne

/-- Claim C6 fails as stated: the payload `QQ==` followed by a line feed is not a
valid standard padded Base64 string, yet a response whose only item carries it is
decoded without error, to the one byte `A`. So a response with an invalid item need
not fail. -/
theorem decodeResponseAudioFiles_accepts_line_break :
    validPadded [81, 81, 61, 61, 10] = false ∧
    decodeResponseAudioFiles ⟨[sampleItem [81, 81, 61, 61, 10]]⟩ = (some [[65]], none) ∧
    ¬ ((decodeResponseAudioFiles ⟨[sampleItem [81, 81, 61, 61, 10]]⟩).2 ≠ none ↔
      ∃ item ∈ (⟨[sampleItem [81, 81, 61, 61, 10]]⟩ :
          TextToFxResponse).SoundGenerationsWithWaveforms,
        validPadded item.WaveformBase64 = false) := by
  have h1 : validPadded [81, 81, 61, 61, 10] = false := by decide
  have h2 : decodeResponseAudioFiles ⟨[sampleItem [81, 81, 61, 61, 10]]⟩ =
      (some [[65]], none) := by decide
  refine ⟨h1, h2, ?_⟩
  rw [h2]
  intro h
  exact (h.mpr ⟨sampleItem [81, 81, 61, 61, 10], by simp, h1⟩) rfl

/-- Claim C7: Round trip: for every finite list of byte strings (the empty list
included) and any metadata, a response whose `i`-th item carries the standard Base64
encoding of the `i`-th byte string is decoded by `decodeResponseAudioFiles` without
error to exactly that list, in the same order. -/
theorem decodeResponseAudioFiles_roundtrip
    (items : List (SoundGenerationHistoryItem × List Byte)) :
    decodeResponseAudioFiles
        ⟨items.map (fun p => ⟨p.1, EncodeToString p.2⟩)⟩ =
      (some (items.map (fun p => p.2)), none) := by
  have hok := decodeResponseAudioFiles_ok
    ⟨items.map (fun p => (⟨p.1, EncodeToString p.2⟩ : SoundGenerationWithWaveform))⟩
    (by
      intro item hi
      simp only [List.mem_map] at hi
      obtain ⟨p, _, rfl⟩ := hi
      simp [DecodeString_EncodeToString])
  rw [hok]
  simp [DecodeString_EncodeToString, Function.comp_def]

/-! ## Lemmas on `actionsHandler` -/

theorem notice_eq (update : Update) (text : String) :
    notice update text = .message ⟨update.ChatID, text, "HTML", true⟩ := rfl

theorem errorNotice_eq (update : Update) (err : GoError) :
    errorNotice update err = .message ⟨update.ChatID, errorHandlerText err, "HTML", false⟩ :=
  rfl

theorem completionText_ne_ackText (c a : String) : completionText c a ≠ ackText := by
  intro h
  have h1 := congrArg String.length h
  have h2 : ackText.length = 28 := by rfl
  have h3 : ("🎵 Генерация аудио завершена! Чтобы сгенерировать еще, напиши <code>/" :
    String).length = 68 := by rfl
  simp only [completionText, String.length_append] at h1
  omega

theorem completionText_ne_multipleText (c a : String) : completionText c a ≠ multipleText := by
  intro h
  have h1 := congrArg String.length h
  have h2 : multipleText.length = 70 := by rfl
  have h3 : ("🎵 Генерация аудио завершена! Чтобы сгенерировать еще, напиши <code>/" :
    String).length = 68 := by rfl
  have h4 : ("</code>" : String).length = 7 := by rfl
  have h5 : (" " : String).length = 1 := by rfl
  simp only [completionText, String.length_append] at h1
  omega

theorem generateErrorText_head (e : GoError) :
    (generateErrorText e).data.head? = some 'E' := by
  simp [generateErrorText, String.data_append]

theorem completionText_head (c a : String) :
    (completionText c a).data.head? = some '🎵' := by
  simp [completionText, String.data_append]

theorem generateErrorText_ne_emptyText (e : GoError) : generateErrorText e ≠ emptyText := by
  intro h
  have h1 := congrArg (fun s => s.data.head?) h
  simp only [generateErrorText_head] at h1
  revert h1
  decide

theorem generateErrorText_ne_multipleText (e : GoError) :
    generateErrorText e ≠ multipleText := by
  intro h
  have h1 := congrArg (fun s => s.data.head?) h
  simp only [generateErrorText_head] at h1
  revert h1
  decide

theorem generateErrorText_ne_completionText (e : GoError) (c a : String) :
    generateErrorText e ≠ completionText c a := by
  intro h
  have h1 := congrArg (fun s => s.data.head?) h
  simp only [generateErrorText_head, completionText_head] at h1
  revert h1
  decide

/-- The completion notice quotes the command as `/<command> <arguments>`. -/
theorem completionText_echo (c a : String) :
    ∃ pre post, completionText c a = pre ++ ("/" ++ c ++ " " ++ a) ++ post := by
  refine ⟨"🎵 Генерация аудио завершена! Чтобы сгенерировать еще, напиши <code>", "</code>", ?_⟩
  have h : ("🎵 Генерация аудио завершена! Чтобы сгенерировать еще, напиши <code>/" : String) =
      "🎵 Генерация аудио завершена! Чтобы сгенерировать еще, напиши <code>" ++ "/" := by
    decide
  simp only [completionText, h, String.append_assoc]

/-- When every attachment send succeeds, the loop sends all audios in order. -/
theorem sendAudios_ok (bot : BotAPI) (update : Update) (audioBytes : List (List Byte))
    (tr : List Effect)
    (hall : ∀ i a, audioBytes[i]? = some a →
      bot.Send (tr ++ (audioBytes.take i).map (sent update)) (audioUpload update a) = none) :
    sendAudios bot update audioBytes tr = (tr ++ audioBytes.map (sent update), none) := by
  induction audioBytes generalizing tr with
  | nil => simp [sendAudios]
  | cons a rest ih =>
    have h0 : bot.Send tr (audioUpload update a) = none := by
      simpa using hall 0 a (by simp)
    have := ih (tr ++ [Effect.Send (audioUpload update a)]) (by
      intro i b hb
      have := hall (i + 1) b (by simpa using hb)
      simpa [sent] using this)
    simp only [sendAudios, botSend, h0]
    simpa [sent] using this

/-- When the send of attachment `k` is the first to fail, the loop stops there: the
attachments `0 .. k` have been sent, then the error notice, and the error is
returned. -/
theorem sendAudios_fail (bot : BotAPI) (update : Update) (audioBytes : List (List Byte))
    (tr : List Effect) (k : Nat) (audio : List Byte) (e : GoError)
    (hk : audioBytes[k]? = some audio)
    (hprev : ∀ i a, i < k → audioBytes[i]? = some a →
      bot.Send (tr ++ (audioBytes.take i).map (sent update)) (audioUpload update a) = none)
    (hfail : bot.Send (tr ++ (audioBytes.take k).map (sent update))
      (audioUpload update audio) = some e) :
    sendAudios bot update audioBytes tr =
      (tr ++ (audioBytes.take (k + 1)).map (sent update) ++
        [Effect.Send (errorNotice update e)], some e) := by
  induction audioBytes generalizing tr k with
  | nil => simp at hk
  | cons a rest ih =>
    cases k with
    | zero =>
      have ha : a = audio := by simpa using hk
      subst ha
      have h0 : bot.Send tr (audioUpload update a) = some e := by simpa using hfail
      simp [sendAudios, botSend, h0, errorHandler, sent]
    | succ k =>
      have h0 : bot.Send tr (audioUpload update a) = none := by
        simpa using hprev 0 a (by omega) (by simp)
      have := ih (tr ++ [Effect.Send (audioUpload update a)]) k (by simpa using hk)
        (by
          intro i b hi hb
          have := hprev (i + 1) b (by omega) (by simpa using hb)
          simpa [sent] using this)
        (by simpa [sent] using hfail)
      simp only [sendAudios, botSend, h0]
      simpa [sent] using this

theorem filter_isAttachment_sent (update : Update) (l : List (List Byte)) :
    (l.map (sent update)).filter Effect.isAttachment = l.map (sent update) := by
  apply List.filter_eq_self.mpr
  intro x hx
  obtain ⟨a, _, rfl⟩ := List.mem_map.mp hx
  rfl

/-- What `generate` does once the request has succeeded and every item has decoded. -/
theorem generate_decoded (bot : BotAPI) (update : Update) (response : TextToFxResponse)
    (tr : List Effect)
    (hgen : bot.generateSound update.CommandArguments (3 / 10) none = (some response, none))
    (hdec : ∀ item ∈ response.SoundGenerationsWithWaveforms,
      (DecodeString item.WaveformBase64).2 = none) :
    generate bot update tr =
      if (decodedAudios response).length = 0 then
        botSend bot (notice update emptyText)
          (tr ++ [Effect.generateSound update.CommandArguments (3 / 10) none,
            Effect.decodeResponseAudioFiles response])
      else if (decodedAudios response).length > 1 then
        match botSend bot (notice update multipleText)
          (tr ++ [Effect.generateSound update.CommandArguments (3 / 10) none,
            Effect.decodeResponseAudioFiles response]) with
        | (tr3, some err) => (errorHandler bot update err tr3, some err)
        | (tr3, none) => deliver bot update (decodedAudios response) tr3
      else deliver bot update (decodedAudios response)
        (tr ++ [Effect.generateSound update.CommandArguments (3 / 10) none,
          Effect.decodeResponseAudioFiles response]) := by
  simp only [generate, hgen, decodeResponseAudioFiles_ok response hdec, decodedAudios,
    Option.getD_some, List.append_assoc, List.singleton_append]

/-- The acknowledgement is the first effect of a `generate` command with arguments;
when its send succeeds the handler goes on to the request. -/
theorem actionsHandler_generate (bot : BotAPI) (update : Update)
    (hcmd : update.IsCommand = true) (hname : update.Command = "generate")
    (hargs : update.CommandArguments ≠ "")
    (hack : bot.Send [] (notice update ackText) = none) :
    actionsHandler bot update = generate bot update [Effect.Send (notice update ackText)] := by
  simp [actionsHandler, hcmd, hname, hargs, botSend, hack]

/-- Claim C3: For a `generate` command with non-empty arguments, when the request
succeeds with `N` items that all decode and every send succeeds, the effects are, in
order: the acknowledgement notice, one generation request (text = the arguments,
prompt influence 0.3, no duration), the decoding, and then: for `N = 0` one "empty
result" notice and nothing else; for `N = 1` one attachment and the completion
notice; for `N ≥ 2` one "multiple" notice, the `N` attachments, each named
`audio.mp3` and carrying the decoded bytes of its item, in order, and the completion
notice. The completion notice contains `/<command> <arguments>`. -/
theorem actionsHandler_generate_success (bot : BotAPI) (update : Update)
    (response : TextToFxResponse)
    (hcmd : update.IsCommand = true) (hname : update.Command = "generate")
    (hargs : update.CommandArguments ≠ "")
    (hsend : ∀ tr c, bot.Send tr c = none)
    (hgen : bot.generateSound update.CommandArguments (3 / 10) none = (some response, none))
    (hdec : ∀ item ∈ response.SoundGenerationsWithWaveforms,
      (DecodeString item.WaveformBase64).2 = none) :
    (response.SoundGenerationsWithWaveforms.length = 0 →
      actionsHandler bot update =
        ([Effect.Send (notice update ackText),
          Effect.generateSound update.CommandArguments (3 / 10) none,
          Effect.decodeResponseAudioFiles response,
          Effect.Send (notice update emptyText)], none) ∧
      (actionsHandler bot update).1.filter Effect.isAttachment = [] ∧
      completionNotice update ∉ (actionsHandler bot update).1) ∧
    (response.SoundGenerationsWithWaveforms.length = 1 →
      actionsHandler bot update =
        ([Effect.Send (notice update ackText),
          Effect.generateSound update.CommandArguments (3 / 10) none,
          Effect.decodeResponseAudioFiles response] ++
          response.SoundGenerationsWithWaveforms.map (fun item =>
            Effect.Send (.audio ⟨update.ChatID,
              ⟨"audio.mp3", (DecodeString item.WaveformBase64).1⟩⟩)) ++
          [Effect.Send (notice update
            (completionText update.Command update.CommandArguments))], none) ∧
      Effect.Send (notice update multipleText) ∉ (actionsHandler bot update).1) ∧
    (2 ≤ response.SoundGenerationsWithWaveforms.length →
      actionsHandler bot update =
        ([Effect.Send (notice update ackText),
          Effect.generateSound update.CommandArguments (3 / 10) none,
          Effect.decodeResponseAudioFiles response,
          Effect.Send (notice update multipleText)] ++
          response.SoundGenerationsWithWaveforms.map (fun item =>
            Effect.Send (.audio ⟨update.ChatID,
              ⟨"audio.mp3", (DecodeString item.WaveformBase64).1⟩⟩)) ++
          [Effect.Send (notice update
            (completionText update.Command update.CommandArguments))], none) ∧
      (actionsHandler bot update).1.count (Effect.Send (notice update multipleText)) = 1 ∧
      (actionsHandler bot update).1.filter Effect.isAttachment =
        response.SoundGenerationsWithWaveforms.map (fun item =>
          Effect.Send (.audio ⟨update.ChatID,
            ⟨"audio.mp3", (DecodeString item.WaveformBase64).1⟩⟩))) ∧
    (∃ pre post, completionText update.Command update.CommandArguments =
      pre ++ ("/" ++ update.Command ++ " " ++ update.CommandArguments) ++ post) := by
  have hA := actionsHandler_generate bot update hcmd hname hargs (hsend _ _)
  have hG := generate_decoded bot update response [Effect.Send (notice update ackText)]
    hgen hdec
  have hlen : (decodedAudios response).length =
      response.SoundGenerationsWithWaveforms.length := by simp [decodedAudios]
  have hD : ∀ tr, deliver bot update (decodedAudios response) tr =
      (tr ++ (decodedAudios response).map (sent update) ++
        [Effect.Send (notice update
          (completionText update.Command update.CommandArguments))], none) := by
    intro tr
    simp [deliver, sendAudios_ok bot update (decodedAudios response) tr
      (fun _ _ _ => hsend _ _), botSend, hsend]
  have hmap : (decodedAudios response).map (sent update) =
      response.SoundGenerationsWithWaveforms.map (fun item =>
        Effect.Send (.audio ⟨update.ChatID,
          ⟨"audio.mp3", (DecodeString item.WaveformBase64).1⟩⟩)) := by
    simp [decodedAudios, sent, audioUpload, NewAudioUpload, Function.comp_def]
  have hca := completionText_ne_ackText update.Command update.CommandArguments
  have hcm := completionText_ne_multipleText update.Command update.CommandArguments
  have hce : completionText update.Command update.CommandArguments ≠ emptyText := by
    intro h
    have h1 := congrArg String.length h
    have h2 : emptyText.length = 67 := by rfl
    have h3 : ("🎵 Генерация аудио завершена! Чтобы сгенерировать еще, напиши <code>/" :
      String).length = 68 := by rfl
    simp only [completionText, String.length_append] at h1
    omega
  have ham : ackText ≠ multipleText := by decide
  have hfil : (response.SoundGenerationsWithWaveforms.map (fun item =>
      Effect.Send (.audio ⟨update.ChatID,
        ⟨"audio.mp3", (DecodeString item.WaveformBase64).1⟩⟩))).filter Effect.isAttachment =
      response.SoundGenerationsWithWaveforms.map (fun item =>
        Effect.Send (.audio ⟨update.ChatID,
          ⟨"audio.mp3", (DecodeString item.WaveformBase64).1⟩⟩)) := by
    rw [← hmap]
    exact filter_isAttachment_sent update _
  rw [hA, hG, hlen]
  refine ⟨?_, ?_, ?_, completionText_echo _ _⟩
  · intro h0
    simp [h0, botSend, hsend, Effect.isAttachment, notice_eq, completionNotice, hca, hce]
  · intro h1
    simp [h1, hD, hmap, notice_eq, ham, ham.symm, hcm.symm]
  · intro h2
    have hne : response.SoundGenerationsWithWaveforms.length ≠ 0 := by omega
    have hgt : response.SoundGenerationsWithWaveforms.length > 1 := by omega
    simp only [hne, hgt, if_false, if_true, botSend, hsend, hD, hmap]
    refine ⟨by simp, ?_, ?_⟩
    · simp [List.count_cons, List.count_append, notice_eq, ham, hcm, List.count_eq_zero]
    · simp only [List.filter_append, hfil]
      simp [Effect.isAttachment, notice_eq]

/-- Claim C9: For a `generate` command with non-empty arguments whose request fails
with error `e` (the acknowledgement having been sent), the effects are exactly: the
acknowledgement notice, the generation request, and one error notice whose text
contains the message of `e`. There is no call of `decodeResponseAudioFiles`, no
attachment and no further notice; the handler returns the result of sending the
error notice. -/
theorem actionsHandler_generate_request_error (bot : BotAPI) (update : Update)
    (result : Option TextToFxResponse) (e : GoError)
    (hcmd : update.IsCommand = true) (hname : update.Command = "generate")
    (hargs : update.CommandArguments ≠ "")
    (hack : bot.Send [] (notice update ackText) = none)
    (hgen : bot.generateSound update.CommandArguments (3 / 10) none = (result, some e)) :
    actionsHandler bot update =
      ([Effect.Send (notice update ackText),
        Effect.generateSound update.CommandArguments (3 / 10) none,
        Effect.Send (notice update (generateErrorText e))],
       bot.Send [Effect.Send (notice update ackText),
        Effect.generateSound update.CommandArguments (3 / 10) none]
        (notice update (generateErrorText e))) ∧
    (∃ pre post, generateErrorText e = pre ++ e.Error ++ post) ∧
    (∀ x ∈ (actionsHandler bot update).1, x.isDecode = false ∧ x.isAttachment = false ∧
      x ≠ Effect.Send (notice update emptyText) ∧
      x ≠ Effect.Send (notice update multipleText) ∧ x ≠ completionNotice update) := by
  have hA := actionsHandler_generate bot update hcmd hname hargs hack
  have hT : actionsHandler bot update =
      ([Effect.Send (notice update ackText),
        Effect.generateSound update.CommandArguments (3 / 10) none,
        Effect.Send (notice update (generateErrorText e))],
       bot.Send [Effect.Send (notice update ackText),
        Effect.generateSound update.CommandArguments (3 / 10) none]
        (notice update (generateErrorText e))) := by
    rw [hA]
    simp [generate, hgen, botSend]
  refine ⟨hT, ⟨"Error generating sound: ", "", by simp [generateErrorText]⟩, ?_⟩
  rw [hT]
  intro x hx
  simp only [List.mem_cons, List.mem_singleton, List.not_mem_nil, or_false] at hx
  have h1 : ackText ≠ emptyText := by decide
  have h2 : ackText ≠ multipleText := by decide
  have h3 := (completionText_ne_ackText update.Command update.CommandArguments).symm
  have h4 := generateErrorText_ne_emptyText e
  have h5 := generateErrorText_ne_multipleText e
  have h6 := generateErrorText_ne_completionText e update.Command update.CommandArguments
  rcases hx with rfl | rfl | rfl <;>
    simp [Effect.isDecode, Effect.isAttachment, notice_eq, completionNotice, h1, h2, h3, h4, h5,
      h6]

/-- Claim C10: For every command whose name is neither `start` nor `generate`, and
every argument string, `actionsHandler` performs exactly one effect, the send of the
fixed notice `I don't know that command` (the same for every such name), and returns
the result of that send. -/
theorem actionsHandler_unknown_command (bot : BotAPI) (update : Update)
    (hcmd : update.IsCommand = true) (hstart : update.Command ≠ "start")
    (hgenerate : update.Command ≠ "generate") :
    actionsHandler bot update =
      ([Effect.Send (.message ⟨update.ChatID, "I don't know that command", "HTML", true⟩)],
        bot.Send [] (.message ⟨update.ChatID, "I don't know that command", "HTML", true⟩)) := by
  simp [actionsHandler, hcmd, hstart, hgenerate, botSend, notice_eq, unknownText]

/-- Claim C8, as amended: For every `generate` command whose arguments are exactly
the empty string, `actionsHandler` sends the prompt-for-text notice exactly once, and
nothing else apart from the error notice of `errorHandler` when that send failed: it
issues no generation request, sends no acknowledgement and no attachment, and
terminates there. What it returns is not part of this statement. -/
theorem actionsHandler_generate_empty (bot : BotAPI) (update : Update)
    (hcmd : update.IsCommand = true) (hname : update.Command = "generate")
    (hargs : update.CommandArguments = "") :
    (actionsHandler bot update).1 =
      Effect.Send (notice update promptText) ::
        (match bot.Send [] (notice update promptText) with
         | none => []
         | some err => [Effect.Send (errorNotice update err)]) ∧
    (actionsHandler bot update).1.count (Effect.Send (notice update promptText)) = 1 ∧
    (∀ x ∈ (actionsHandler bot update).1,
      x.isRequest = false ∧ x.isAttachment = false ∧ x.isDecode = false ∧
        x ≠ Effect.Send (notice update ackText)) := by
  have hT : (actionsHandler bot update).1 =
      Effect.Send (notice update promptText) ::
        (match bot.Send [] (notice update promptText) with
         | none => []
         | some err => [Effect.Send (errorNotice update err)]) := by
    cases h : bot.Send [] (notice update promptText) <;>
      simp [actionsHandler, hcmd, hname, hargs, botSend, h, errorHandler]
  refine ⟨hT, ?_, ?_⟩
  · rw [hT]
    cases h : bot.Send [] (notice update promptText) <;>
      simp [List.count_cons, notice_eq, errorNotice_eq]
  rw [hT]
  have hpa : promptText ≠ ackText := by decide
  intro x hx
  cases h : bot.Send [] (notice update promptText) with
  | none =>
    simp only [h, List.mem_singleton] at hx
    subst hx
    simp [Effect.isRequest, Effect.isAttachment, Effect.isDecode, notice_eq, hpa]
  | some err =>
    simp only [h, List.mem_cons, List.mem_singleton, List.not_mem_nil, or_false] at hx
    rcases hx with rfl | rfl <;>
      simp [Effect.isRequest, Effect.isAttachment, Effect.isDecode, notice_eq,
        errorNotice_eq, hpa]

theorem filter_isAttachment_deliveryStart (update : Update) (response : TextToFxResponse) :
    (deliveryStart update response).filter Effect.isAttachment = [] := by
  unfold deliveryStart requested
  split <;> simp [Effect.isAttachment, notice_eq]

theorem completionNotice_not_mem_deliveryStart (update : Update)
    (response : TextToFxResponse) :
    completionNotice update ∉ deliveryStart update response := by
  have h1 := completionText_ne_ackText update.Command update.CommandArguments
  have h2 := completionText_ne_multipleText update.Command update.CommandArguments
  unfold deliveryStart requested completionNotice
  split <;> simp [notice_eq, h1, h2]

theorem completionNotice_not_mem_sent (update : Update) (l : List (List Byte)) :
    completionNotice update ∉ l.map (sent update) := by
  simp [completionNotice, sent, notice_eq, audioUpload]

theorem completionNotice_ne_errorNotice (update : Update) (e : GoError) :
    completionNotice update ≠ Effect.Send (errorNotice update e) := by
  simp [completionNotice, notice_eq, errorNotice_eq]

/-- Claim C4: For a `generate` invocation that reaches delivery with `N ≥ 1` decoded
audios: (a) if `N ≥ 2` and the send of the "multiple" notice fails with `e`, no
attachment is sent; (b) if the send of attachment `k` is the first send of the
delivery to fail, with `e`, the attachments sent are exactly those of the items
`0 .. k`. In both cases the only further effect is the error notice of
`errorHandler`, the completion notice is not sent, and the handler returns `e`. -/
theorem actionsHandler_delivery_failure (bot : BotAPI) (update : Update)
    (response : TextToFxResponse) (e : GoError)
    (hcmd : update.IsCommand = true) (hname : update.Command = "generate")
    (hargs : update.CommandArguments ≠ "")
    (hack : bot.Send [] (notice update ackText) = none)
    (hgen : bot.generateSound update.CommandArguments (3 / 10) none = (some response, none))
    (hdec : ∀ item ∈ response.SoundGenerationsWithWaveforms,
      (DecodeString item.WaveformBase64).2 = none)
    (hN : 1 ≤ response.SoundGenerationsWithWaveforms.length) :
    (2 ≤ response.SoundGenerationsWithWaveforms.length →
      bot.Send (requested update response) (notice update multipleText) = some e →
      actionsHandler bot update =
        (requested update response ++ [Effect.Send (notice update multipleText),
          Effect.Send (errorNotice update e)], some e) ∧
      (actionsHandler bot update).1.filter Effect.isAttachment = [] ∧
      completionNotice update ∉ (actionsHandler bot update).1) ∧
    (∀ k audio, (decodedAudios response)[k]? = some audio →
      (2 ≤ response.SoundGenerationsWithWaveforms.length →
        bot.Send (requested update response) (notice update multipleText) = none) →
      (∀ i a, i < k → (decodedAudios response)[i]? = some a →
        bot.Send (deliveryStart update response ++
          ((decodedAudios response).take i).map (sent update)) (audioUpload update a) = none) →
      bot.Send (deliveryStart update response ++
        ((decodedAudios response).take k).map (sent update)) (audioUpload update audio) =
          some e →
      actionsHandler bot update =
        (deliveryStart update response ++
          ((decodedAudios response).take (k + 1)).map (sent update) ++
          [Effect.Send (errorNotice update e)], some e) ∧
      (actionsHandler bot update).1.filter Effect.isAttachment =
        ((decodedAudios response).take (k + 1)).map (sent update) ∧
      completionNotice update ∉ (actionsHandler bot update).1) := by
  have hA := actionsHandler_generate bot update hcmd hname hargs hack
  have hG := generate_decoded bot update response [Effect.Send (notice update ackText)]
    hgen hdec
  have hlen : (decodedAudios response).length =
      response.SoundGenerationsWithWaveforms.length := by simp [decodedAudios]
  have hne : response.SoundGenerationsWithWaveforms.length ≠ 0 := by omega
  rw [hlen] at hG
  simp only [hne, if_false, List.singleton_append] at hG
  have hreq : [Effect.Send (notice update ackText),
      Effect.generateSound update.CommandArguments (3 / 10) none,
      Effect.decodeResponseAudioFiles response] = requested update response := rfl
  rw [hreq] at hG
  constructor
  · intro h2 hfail
    have hgt : response.SoundGenerationsWithWaveforms.length > 1 := by omega
    have hT : actionsHandler bot update =
        (requested update response ++ [Effect.Send (notice update multipleText),
          Effect.Send (errorNotice update e)], some e) := by
      rw [hA, hG]
      simp [hgt, botSend, hfail, errorHandler]
    refine ⟨hT, ?_, ?_⟩
    · rw [hT]
      simp [requested, Effect.isAttachment, notice_eq, errorNotice_eq]
    · rw [hT]
      have h1 := completionText_ne_ackText update.Command update.CommandArguments
      have h2 := completionText_ne_multipleText update.Command update.CommandArguments
      simp [requested, completionNotice, notice_eq, errorNotice_eq, h1, h2]
  · intro k audio hk hmult hprev hfail
    have hS : generate bot update [Effect.Send (notice update ackText)] =
        deliver bot update (decodedAudios response) (deliveryStart update response) := by
      rw [hG]
      by_cases h2 : 2 ≤ response.SoundGenerationsWithWaveforms.length
      · have hgt : response.SoundGenerationsWithWaveforms.length > 1 := by omega
        simp [hgt, botSend, hmult h2, deliveryStart, h2]
      · have hgt : ¬ response.SoundGenerationsWithWaveforms.length > 1 := by omega
        simp [hgt, deliveryStart, h2]
    have hF := sendAudios_fail bot update (decodedAudios response)
      (deliveryStart update response) k audio e hk hprev hfail
    have hT : actionsHandler bot update =
        (deliveryStart update response ++
          ((decodedAudios response).take (k + 1)).map (sent update) ++
          [Effect.Send (errorNotice update e)], some e) := by
      rw [hA, hS]
      simp [deliver, hF]
    refine ⟨hT, ?_, ?_⟩
    · rw [hT]
      simp only [List.filter_append, filter_isAttachment_sent,
        filter_isAttachment_deliveryStart, List.nil_append]
      simp [Effect.isAttachment, errorNotice_eq]
    · rw [hT]
      simp only [List.mem_append, List.mem_singleton, not_or]
      exact ⟨⟨completionNotice_not_mem_deliveryStart update response,
        completionNotice_not_mem_sent update _⟩, completionNotice_ne_errorNotice update e⟩

/-! ## The claims at sample inputs -/

set_option maxRecDepth 100000 in
theorem threeItems_decode : ∀ item ∈ threeItems.SoundGenerationsWithWaveforms,
    (DecodeString item.WaveformBase64).2 = none := by
  decide

set_option maxRecDepth 100000 in
theorem threeItems_decodedAudios :
    decodedAudios threeItems = [[65], [65, 66], [65, 66, 67]] := by
  decide

/-- Scenario B: `/generate snare` answered with three items. -/
theorem actionsHandler_generate_success_witness :
    actionsHandler (okBot (some threeItems, none)) (generateUpdate "snare") =
      ([Effect.Send (notice (generateUpdate "snare") ackText),
        Effect.generateSound "snare" (3 / 10) none,
        Effect.decodeResponseAudioFiles threeItems,
        Effect.Send (notice (generateUpdate "snare") multipleText)] ++
        threeItems.SoundGenerationsWithWaveforms.map (fun item =>
          Effect.Send (.audio ⟨1, ⟨"audio.mp3", (DecodeString item.WaveformBase64).1⟩⟩)) ++
        [Effect.Send (notice (generateUpdate "snare") (completionText "generate" "snare"))],
        none) :=
  ((actionsHandler_generate_success (okBot (some threeItems, none)) (generateUpdate "snare")
    threeItems rfl rfl (by decide) (fun _ _ => rfl) rfl threeItems_decode).2.2.1
    (by decide)).1

/-- With three items and a transport whose sixth effect fails, the second attachment
is the last one sent. -/
theorem actionsHandler_delivery_failure_witness :
    actionsHandler (failAtBot 5 (some threeItems, none)) (generateUpdate "snare") =
      (deliveryStart (generateUpdate "snare") threeItems ++
        ((decodedAudios threeItems).take 2).map (sent (generateUpdate "snare")) ++
        [Effect.Send (errorNotice (generateUpdate "snare") (.other "send failed"))],
        some (.other "send failed")) :=
  ((actionsHandler_delivery_failure (failAtBot 5 (some threeItems, none))
    (generateUpdate "snare") threeItems (.other "send failed") rfl rfl (by decide) rfl rfl
    threeItems_decode (by decide)).2 1 [65, 66]
    (by rw [threeItems_decodedAudios]; rfl)
    (fun _ => rfl)
    (by
      intro i a hi _
      have hi0 : i = 0 := by omega
      subst hi0
      rfl)
    (by rw [threeItems_decodedAudios]; rfl)).1

/-- A request that fails after the acknowledgement, on a transport that works. -/
theorem actionsHandler_generate_request_error_witness :
    actionsHandler (okBot (none, some requestError)) (generateUpdate "kick") =
      ([Effect.Send (notice (generateUpdate "kick") ackText),
        Effect.generateSound "kick" (3 / 10) none,
        Effect.Send (notice (generateUpdate "kick") (generateErrorText requestError))],
        none) :=
  (actionsHandler_generate_request_error (okBot (none, some requestError))
    (generateUpdate "kick") none requestError rfl rfl (by decide) rfl rfl).1

/-- The command `/help` is answered with the fixed notice. -/
theorem actionsHandler_unknown_command_witness :
    actionsHandler (okBot (none, some requestError)) helpUpdate =
      ([Effect.Send (.message ⟨1, "I don't know that command", "HTML", true⟩)], none) :=
  actionsHandler_unknown_command (okBot (none, some requestError)) helpUpdate rfl
    (by decide) (by decide)

/-- The command `/generate` without arguments is answered with the prompt alone. -/
theorem actionsHandler_generate_empty_witness :
    (actionsHandler (okBot (none, some requestError)) (generateUpdate "")).1 =
      [Effect.Send (notice (generateUpdate "") promptText)] :=
  (actionsHandler_generate_empty (okBot (none, some requestError)) (generateUpdate "")
    rfl rfl rfl).1

/-- Claim C8 fails as stated: Arguments that are one blank are empty after trimming,
yet the handler does not prompt: it acknowledges, issues the generation request and
reports the (here empty) result. -/
theorem actionsHandler_blank_arguments_are_requested :
    (" ".toList.all Char.isWhitespace = true) ∧
    actionsHandler (okBot (some ⟨[]⟩, none)) (generateUpdate " ") =
      ([Effect.Send (notice (generateUpdate " ") ackText),
        Effect.generateSound " " (3 / 10) none,
        Effect.decodeResponseAudioFiles ⟨[]⟩,
        Effect.Send (notice (generateUpdate " ") emptyText)], none) ∧
    Effect.Send (notice (generateUpdate " ") promptText) ∉
      (actionsHandler (okBot (some ⟨[]⟩, none)) (generateUpdate " ")).1 ∧
    (∃ x ∈ (actionsHandler (okBot (some ⟨[]⟩, none)) (generateUpdate " ")).1,
      x.isRequest = true) := by
  have hT : actionsHandler (okBot (some ⟨[]⟩, none)) (generateUpdate " ") =
      ([Effect.Send (notice (generateUpdate " ") ackText),
        Effect.generateSound " " (3 / 10) none,
        Effect.decodeResponseAudioFiles ⟨[]⟩,
        Effect.Send (notice (generateUpdate " ") emptyText)], none) :=
    by
      have hb : (" " : String) ≠ "" := by decide
      simp [actionsHandler, generate, generateUpdate, okBot, botSend, hb,
        decodeResponseAudioFiles]
  refine ⟨by decide, hT, ?_, ?_⟩
  · rw [hT]
    have h1 : promptText ≠ ackText := by decide
    have h2 : promptText ≠ emptyText := by decide
    simp [notice_eq, h1, h2]
  · rw [hT]
    exact ⟨Effect.generateSound " " (3 / 10) none, by simp, rfl⟩

/-- Claim C1 at its failing input: On `/generate` without arguments, when the send of
the prompt fails, the handler sends the error notice and returns `nil`. -/
theorem actionsHandler_prompt_send_failure_returns_nil :
    actionsHandler downBot (generateUpdate "") =
      ([Effect.Send (notice (generateUpdate "") promptText),
        Effect.Send (errorNotice (generateUpdate "") (.other "send failed"))], none) ∧
    mainStep downBot (generateUpdate "") = none := by
  have hT : actionsHandler downBot (generateUpdate "") =
      ([Effect.Send (notice (generateUpdate "") promptText),
        Effect.Send (errorNotice (generateUpdate "") (.other "send failed"))], none) := by
    simp [actionsHandler, generateUpdate, downBot, botSend, errorHandler]
  exact ⟨hT, by simp [mainStep, hT]⟩

/-- Claim C2 at its failing input: When the generation request fails and the error
notice is sent, the handler returns `nil`: the error of the request is lost. -/
theorem actionsHandler_request_error_returns_nil :
    actionsHandler (okBot (none, some requestError)) (generateUpdate "kick") =
      ([Effect.Send (notice (generateUpdate "kick") ackText),
        Effect.generateSound "kick" (3 / 10) none,
        Effect.Send (notice (generateUpdate "kick")
          "Error generating sound: failed to send request: timeout")], none) ∧
    mainStep (okBot (none, some requestError)) (generateUpdate "kick") = none := by
  have hk : ("kick" : String) ≠ "" := by decide
  have hT : actionsHandler (okBot (none, some requestError)) (generateUpdate "kick") =
      ([Effect.Send (notice (generateUpdate "kick") ackText),
        Effect.generateSound "kick" (3 / 10) none,
        Effect.Send (notice (generateUpdate "kick")
          "Error generating sound: failed to send request: timeout")], none) := by
    simp [actionsHandler, generate, generateUpdate, okBot, botSend, hk, generateErrorText,
      requestError, GoError.Error]
  exact ⟨hT, by simp [mainStep, hT]⟩

/-- In the other three branches the error of the first send is returned. -/
theorem actionsHandler_first_send_error (bot : BotAPI) (update : Update) (e : GoError)
    (hcmd : update.IsCommand = true)
    (hbranch : update.Command ≠ "generate" ∨ update.CommandArguments ≠ "")
    (hfail : ∀ c, bot.Send [] c = some e) :
    (actionsHandler bot update).2 = some e := by
  by_cases hs : update.Command = "start"
  · simp [actionsHandler, hcmd, hs, botSend, hfail]
  · by_cases hg : update.Command = "generate"
    · have ha : update.CommandArguments ≠ "" := by
        rcases hbranch with h | h
        · exact absurd hg h
        · exact h
      simp [actionsHandler, hcmd, hs, hg, ha, botSend, hfail]
    · simp [actionsHandler, hcmd, hs, hg, botSend, hfail]

end FxBot
